import Mathlib

/-!
Verification of the Cursor/Windsurf data-cleaner engine against its
natural-language specification.

The development shallowly embeds the mutation engine of
`advanced_cleaner.py` (class `AdvancedDataCleaner`) and
`cursor_windsurf_cleaner.py` (class `DataCleaner`):

* key/value stores (the SQLite `ItemTable` and flat JSON objects) are
  association lists `List (String × String)`;
* relational tables under keyword purge are `List (List String)` (rows of
  column values, columns addressed by index);
* the filesystem effects of cache eviction, backup creation and the
  retention sweep are explicit state values;
* the two `uuid.uuid4()` calls made once per store rotation appear as the
  explicit parameters `newMachineId` / `newSessionId`;
* fallible OS actions (backup copy, per-item removal, per-entry deletion)
  carry an explicit success flag, standing for whether the corresponding
  Python call raises.

All definitions are executable, so every theorem can be exercised on
concrete inputs.
-/

namespace Cleaner

/-! ## String primitives

SQLite's default `LIKE` and the Python `str.lower()` calls in the source
fold case only on ASCII letters for the identifiers involved; `asciiLower`
models that folding. `startsWithChars` / `hasSub` model the Python `in`
substring operator on strings.
-/

/-- ASCII lower-casing of a single character (SQLite `LIKE` folding,
and `str.lower()` restricted to the ASCII range used by the source). -/
def asciiLower (c : Char) : Char :=
  if 'A' ≤ c ∧ c ≤ 'Z' then Char.ofNat (c.toNat + 32) else c

/-- `startsWithChars hay needle`: `needle` is a leading segment of `hay`. -/
def startsWithChars : List Char → List Char → Bool
  | _, [] => true
  | [], _ :: _ => false
  | h :: hs, n :: ns => h == n && startsWithChars hs ns

/-- `hasSub hay needle`: Python's `needle in hay` substring test. -/
def hasSub : List Char → List Char → Bool
  | [], needle => startsWithChars [] needle
  | h :: t, needle => startsWithChars (h :: t) needle || hasSub t needle

/-- The source's test `'session' in key.lower()` deciding which of the two
generated identifiers a telemetry key receives. -/
def lowerHasSession (key : String) : Bool :=
  hasSub (key.toList.map asciiLower) ("session".toList)

/-- Canonical textual form of a version-4 UUID as produced by Python's
`str(uuid.uuid4())`: 36 characters, hyphens at positions 8, 13, 18, 23,
hexadecimal digits elsewhere. -/
def isHexDigitChar (c : Char) : Bool :=
  ('0' ≤ c && c ≤ '9') || ('a' ≤ c && c ≤ 'f') || ('A' ≤ c && c ≤ 'F')

/-- Whether position `i` of a canonical UUID string holds a legal char. -/
def uuidSlotOk (i : Nat) (c : Char) : Bool :=
  if i == 8 || i == 13 || i == 18 || i == 23 then c == '-' else isHexDigitChar c

/-- Syntactic validity of a generated identifier (canonical UUID text). -/
def isUuidCanonical (s : String) : Bool :=
  s.toList.length == 36 &&
    ((List.range 36).all fun i => uuidSlotOk i (s.toList.getD i ' '))

/-! ## Key/value store primitives -/

/-- First value stored under key `k` (`SELECT value WHERE key = k` /
Python `data[k]`). -/
def lookupVal (rows : List (String × String)) (k : String) : Option String :=
  (rows.find? fun r => r.1 == k).map (·.2)

/-- Whether some row has key `k` (Python `k in data`). -/
def hasKey (rows : List (String × String)) (k : String) : Bool :=
  rows.any fun r => r.1 == k

/-! ## Identifier rotation (`advanced_cleaner.py`)

`_modify_sqlite_telemetry_advanced` (lines 428-470) generates the two
UUIDs once, then for each telemetry key issues
`UPDATE ItemTable SET value = ? WHERE key = ?` choosing the session pool
when `'session' in key.lower()`, then `DELETE FROM ItemTable WHERE key = ?`
for each session key, and returns `True` on the non-exceptional path.
-/

/-- Embedding of `_modify_sqlite_telemetry_advanced`.  The result pairs the
final `ItemTable` rows with the returned boolean. -/
def modifySqliteTelemetryAdvanced (telemetryKeys sessionKeys : List String)
    (newMachineId newSessionId : String) (rows : List (String × String)) :
    List (String × String) × Bool :=
  let rows1 := telemetryKeys.foldl (fun acc key =>
    if lowerHasSession key then
      acc.map fun r => if r.1 == key then (r.1, newSessionId) else r
    else
      acc.map fun r => if r.1 == key then (r.1, newMachineId) else r) rows
  let rows2 := sessionKeys.foldl (fun acc key =>
    acc.filter fun r => !(r.1 == key)) rows1
  (rows2, true)

/-- Embedding of `_modify_json_telemetry_advanced` (lines 472-510): updates
guarded by `key in data`, session-key removal, and the `modified` flag that
decides whether the file is rewritten.  Result: (final object, `modified`,
returned boolean). -/
def modifyJsonTelemetryAdvanced (telemetryKeys sessionKeys : List String)
    (newMachineId newSessionId : String) (data : List (String × String)) :
    List (String × String) × Bool × Bool :=
  let step1 := telemetryKeys.foldl (fun (p : List (String × String) × Bool) key =>
    if hasKey p.1 key then
      (p.1.map (fun r => if r.1 == key then
          (r.1, if lowerHasSession key then newSessionId else newMachineId) else r),
       true)
    else p) (data, false)
  let step2 := sessionKeys.foldl (fun (p : List (String × String) × Bool) key =>
    if hasKey p.1 key then
      (p.1.filter fun r => !(r.1 == key), true)
    else p) step1
  (step2.1, step2.2, true)

/-! ## SQLite `LIKE` matching and keyword purge

`_clean_sqlite_advanced` (lines 546-601) deletes rows with
`DELETE FROM {table} WHERE {col} LIKE ?` bound to `'%' + keyword + '%'`.
SQLite's default `LIKE` semantics: `%` matches any (possibly empty)
sequence, `_` matches exactly one character, and ordinary characters
compare after ASCII case folding (no `PRAGMA case_sensitive_like` is ever
issued by the source).
-/

/-- SQLite `LIKE` pattern matching (default, ASCII case-insensitive):
`%` consumes an arbitrary suffix split — `'%' :: ps` matches `t` exactly
when `ps` matches some suffix of `t` — `_` consumes one character, and
ordinary characters compare after ASCII case folding. -/
def likeMatch : List Char → List Char → Bool
  | [], t => t.isEmpty
  | p :: ps, t =>
    if p == '%' then
      t.tails.any fun s => likeMatch ps s
    else
      match t with
      | [] => false
      | c :: t2 => (p == '_' || asciiLower p == asciiLower c) && likeMatch ps t2

/-- The pattern the source binds to `LIKE`: `'%' + keyword + '%'`. -/
def likePat (keyword : String) : List Char :=
  '%' :: keyword.toList ++ ['%']

/-- Keyword purge of one non-cache table (the `else` branch of the
pattern loop in `_clean_sqlite_advanced`, lines 571-585): for every
keyword and every column, delete the rows whose value in that column
matches `LIKE '%keyword%'`.  Columns are addressed by index `0..ncols-1`;
a missing column value reads as `""`. -/
def cleanKeywordRows (keywords : List String) (ncols : Nat)
    (rows : List (List String)) : List (List String) :=
  keywords.foldl (fun acc keyword =>
    (List.range ncols).foldl (fun acc2 col =>
      acc2.filter fun row => !(likeMatch (likePat keyword) (row.getD col "").toList)) acc) rows

/-- Per-table step of `_clean_sqlite_advanced` (lines 560-585): the
`for pattern in cache_patterns: if pattern in table.lower(): DELETE FROM
{table}; break / else: keyword cleaning` structure.  Result: final rows,
number of rows deleted by keyword matching, and the cache pattern that
fired (if any; `List.find?` returns the first, as `break` does). -/
def cleanTableAdvanced (cachePatterns keywords : List String)
    (tableName : String) (ncols : Nat) (rows : List (List String)) :
    List (List String) × Nat × Option String :=
  match cachePatterns.find? (fun p => hasSub (tableName.toList.map asciiLower) p.toList) with
  | some p => ([], 0, some p)
  | none =>
    let rows1 := cleanKeywordRows keywords ncols rows
    (rows1, rows.length - rows1.length, none)

/-- Keyword purge loop of `_clean_sqlite_database` in
`cursor_windsurf_cleaner.py` (lines 373-383): same `LIKE '%keyword%'`
deletion, but iterating only over `text_columns` — the columns whose
first-row `SELECT typeof(col) ... LIMIT 1` sampled as text/varchar
(lines 364-370), passed here as the index list `textCols`. -/
def cleanKeywordRowsBasic (keywords : List String) (textCols : List Nat)
    (rows : List (List String)) : List (List String) :=
  keywords.foldl (fun acc keyword =>
    textCols.foldl (fun acc2 col =>
      acc2.filter fun row => !(likeMatch (likePat keyword) (row.getD col "").toList)) acc) rows

/-- Per-table step of `_clean_sqlite_database` in
`cursor_windsurf_cleaner.py` (lines 358-399): keyword cleaning runs
FIRST, restricted to the columns whose sampled `typeof` was textual
(`textCols`), and only afterwards does the cache-pattern loop clear the
table.  Result layout as in `cleanTableAdvanced`. -/
def cleanTableBasic (cachePatterns keywords : List String)
    (tableName : String) (textCols : List Nat) (rows : List (List String)) :
    List (List String) × Nat × Option String :=
  let rows1 := cleanKeywordRowsBasic keywords textCols rows
  match cachePatterns.find? (fun p => hasSub (tableName.toList.map asciiLower) p.toList) with
  | some p => ([], rows.length - rows1.length, some p)
  | none => (rows1, rows.length - rows1.length, none)

/-! ## Cache eviction (`advanced_cleaner.py` lines 603-640) -/

/-- Kind of an immediate child of a cache directory (the three branches of
`_clear_directory_contents`). -/
inductive FsKind
  | file
  | symlink
  | dir
deriving DecidableEq, Repr

/-- An immediate child together with whether its removal call
(`unlink` / `rmtree`) succeeds; a `false` flag stands for the per-item
exception that `_clear_directory_contents` logs and swallows. -/
structure FsItem where
  name : String
  kind : FsKind
  removeOk : Bool
deriving DecidableEq, Repr

/-- `_clear_directory_contents` (lines 631-640): every immediate child is
removed (files and symlinks via `unlink`, directories via `rmtree`);
an item whose removal raises stays behind.  The directory node itself is
never touched. -/
def clearDirectoryContents (items : List FsItem) : List FsItem :=
  items.filter fun item =>
    match item.kind with
    | FsKind.file => !item.removeOk
    | FsKind.symlink => !item.removeOk
    | FsKind.dir => !item.removeOk

/-- Filesystem state around one matched cache directory: `dir` is `some
contents` while the directory node exists, and `backups` is the backup
root (each created backup is a snapshot of the directory contents). -/
structure EvictState where
  dir : Option (List FsItem)
  backups : List (List FsItem)
deriving DecidableEq, Repr

/-- One iteration of the per-directory loop in `_clean_cache_advanced`
(lines 613-628) on a matched directory: the size is computed, the backup
is created (when it succeeds it lands in the backup root), and only then
is `dry_run` consulted — contents are cleared unless `dry_run` is set. -/
def cleanCacheDirStep (dryRun backupOk : Bool) (st : EvictState) : EvictState :=
  match st.dir with
  | none => st
  | some items =>
    let st1 := if backupOk then { st with backups := st.backups ++ [items] } else st
    if dryRun then st1
    else { st1 with dir := some (clearDirectoryContents items) }

/-! ## Retention sweep (`advanced_cleaner.py` lines 206-225) -/

/-- One entry of the backup root: its modification time (seconds) and
whether its deletion call (`unlink` / `rmtree`) succeeds. -/
structure BackupEntry where
  mtime : Int
  delOk : Bool
deriving DecidableEq, Repr

/-- The `for backup_file in self.backup_base_dir.iterdir()` loop body of
`_clean_old_backups`, wrapped as a whole in one `try`: an entry strictly
older than the cutoff is deleted; if its deletion raises, the exception
escapes the loop (it is caught, and logged, outside it), so that entry
and every later entry survive.  Returns the entries left afterwards. -/
def sweepBackups (cutoff : Int) : List BackupEntry → List BackupEntry
  | [] => []
  | e :: rest =>
    if e.mtime < cutoff then
      if e.delOk then sweepBackups cutoff rest
      else e :: rest
    else e :: sweepBackups cutoff rest

/-- `_clean_old_backups`: `retention_days <= 0` returns immediately; the
cutoff is `now - timedelta(days=retention_days)` (seconds), and entries
with `st_mtime < cutoff` are deleted. -/
def cleanOldBackups (retentionDays now : Int) (entries : List BackupEntry) :
    List BackupEntry :=
  if retentionDays ≤ 0 then entries
  else sweepBackups (now - retentionDays * 86400) entries

/-! ## Backup-before-mutation traces (claim C1)

`_modify_telemetry_advanced` (advanced, lines 397-426) and
`_modify_telemetry_ids` (basic, lines 164-196) are embedded as the event
trace they emit per discovered store file: a `backup` event for the
`_create_backup` call (with its success flag) and a `mutate` event for
the SQLite/JSON modification call.
-/

/-- What kind of store a discovered file is (decided by suffix in the
source: `.vscdb/.db/.sqlite/.sqlite3` versus `.json` versus anything
else, which neither branch touches). -/
inductive StoreKind
  | sqlite
  | json
  | other
deriving DecidableEq, Repr

/-- A discovered candidate file: identity, whether `exists()` holds, the
outcome of `_create_backup` on it, and its suffix kind. -/
structure FoundFile where
  path : Nat
  present : Bool
  backupOk : Bool
  kind : StoreKind
deriving DecidableEq, Repr

/-- Observable events of the telemetry phase. -/
inductive CleanEvent
  | backup (path : Nat) (ok : Bool)
  | mutate (path : Nat)
deriving DecidableEq, Repr

/-- Per-file events of `_modify_telemetry_advanced`: after the existence
guard, `_create_backup` is always called, and the mutation is attempted
for recognised suffixes whether or not the backup succeeded (the source
only does `if backup: backups_created.append(backup)`). -/
def telemetryFileTraceAdvanced (f : FoundFile) : List CleanEvent :=
  if !f.present then []
  else
    CleanEvent.backup f.path f.backupOk ::
      (match f.kind with
       | StoreKind.sqlite => [CleanEvent.mutate f.path]
       | StoreKind.json => [CleanEvent.mutate f.path]
       | StoreKind.other => [])

/-- Trace of `_modify_telemetry_advanced` over its discovered files. -/
def modifyTelemetryAdvancedTrace (files : List FoundFile) : List CleanEvent :=
  files.foldr (fun f acc => telemetryFileTraceAdvanced f ++ acc) []

/-- Per-file events of `_modify_telemetry_ids` (basic cleaner): same
shape, but `if not backup: continue` skips the mutation when the backup
call returned `None`. -/
def telemetryFileTraceBasic (f : FoundFile) : List CleanEvent :=
  if !f.present then []
  else
    CleanEvent.backup f.path f.backupOk ::
      (if f.backupOk then
        (match f.kind with
         | StoreKind.sqlite => [CleanEvent.mutate f.path]
         | StoreKind.json => [CleanEvent.mutate f.path]
         | StoreKind.other => [])
       else [])

/-- Trace of `_modify_telemetry_ids` over its candidate files. -/
def modifyTelemetryIdsTrace (files : List FoundFile) : List CleanEvent :=
  files.foldr (fun f acc => telemetryFileTraceBasic f ++ acc) []

/-- The claim's happens-before invariant on a trace: every `mutate p` is
preceded by a SUCCESSFUL `backup p`; `backed` accumulates the paths backed
up so far. -/
def mutationsCovered (backed : List Nat) : List CleanEvent → Bool
  | [] => true
  | CleanEvent.backup p true :: rest => mutationsCovered (p :: backed) rest
  | CleanEvent.backup _ false :: rest => mutationsCovered backed rest
  | CleanEvent.mutate p :: rest => backed.contains p && mutationsCovered backed rest

/-- Weaker ordering property: every `mutate p` is preceded by a backup
ATTEMPT on `p`, successful or not. -/
def backupTriedBeforeMutate (seen : List Nat) : List CleanEvent → Bool
  | [] => true
  | CleanEvent.backup p _ :: rest => backupTriedBeforeMutate (p :: seen) rest
  | CleanEvent.mutate p :: rest => seen.contains p && backupTriedBeforeMutate seen rest

/-! ## Phase aggregation (claim C8)

`clean_application_advanced` (advanced, lines 322-381) and
`clean_application` (basic, lines 470-513), with the three mutation
phases abstracted as state transformers returning their success flag.
-/

/-- `clean_application_advanced`: path gate, optional running-process
gate, retention sweep, then phase 1 (telemetry), the Windows-only
registry phase, phase 2 (databases), phase 3 (cache), accumulating
`success &= ...` without short-circuiting the phase calls.  (The
restore-script emission after the phases only writes into the backup
root and does not touch the application state or the result, so it is
not modelled.) -/
def cleanApplicationAdvanced {σ : Type} (pathFound checkProcs running isWindows : Bool)
    (sweepOld : σ → σ) (registryPhase phase1 phase2 phase3 : σ → σ × Bool)
    (s : σ) : σ × Bool :=
  if !pathFound then (s, false)
  else if checkProcs && running then (s, false)
  else
    let s0 := sweepOld s
    let r1 := phase1 s0
    let rReg := if isWindows then registryPhase r1.1 else (r1.1, true)
    let r2 := phase2 rReg.1
    let r3 := phase3 r2.1
    (r3.1, r1.2 && rReg.2 && r2.2 && r3.2)

/-- `clean_application` (basic): path gate, unconditional running-process
gate, then the three phases with `success &= ...`. -/
def cleanApplicationBasic {σ : Type} (pathFound running : Bool)
    (phase1 phase2 phase3 : σ → σ × Bool) (s : σ) : σ × Bool :=
  if !pathFound then (s, false)
  else if running then (s, false)
  else
    let r1 := phase1 s
    let r2 := phase2 r1.1
    let r3 := phase3 r2.1
    (r3.1, r1.2 && r2.2 && r3.2)

/-- Per-row effect of the telemetry-key update loop: the value a single
row ends up with after every `UPDATE ... WHERE key = ?` has run over it
(derived form used to characterise the rotation functions). -/
def rotateRowVal (telemetryKeys : List String) (newMachineId newSessionId : String)
    (r : String × String) : String × String :=
  telemetryKeys.foldl (fun r key =>
    if r.1 == key then (r.1, if lowerHasSession key then newSessionId else newMachineId)
    else r) r

/-! Sanity checks on small inputs. -/

example : lowerHasSession "machineId" = false := by decide
example : lowerHasSession "sessionId" = true := by decide
example : lowerHasSession "userSession" = true := by decide
example :
    (modifySqliteTelemetryAdvanced ["machineId"] ["sessionToken"] "NM" "NS"
      [("machineId", "X"), ("sessionToken", "tok"), ("other", "v")]).1
    = [("machineId", "NM"), ("other", "v")] := by decide
example :
    modifyJsonTelemetryAdvanced ["machineId"] ["sessionToken"] "NM" "NS"
      [("foo", "1")] = ([("foo", "1")], false, true) := by decide
example : likeMatch (likePat "account") "my-ACCOUNT-42".toList = true := by decide
example : likeMatch (likePat "account") "unrelated".toList = false := by decide
example : cleanKeywordRows ["account"] 1 [["ACCOUNT-42"], ["unrelated"]]
    = [["unrelated"]] := by decide
example : (cleanTableAdvanced ["cache"] ["account"] "MyCacheTable" 1 [["a"], ["b"]])
    = ([], 0, some "cache") := by decide
example : (cleanTableAdvanced ["Cache"] [] "cache" 1 [["x"]])
    = ([["x"]], 0, none) := by decide
example : cleanOldBackups 1 200000 [⟨0, true⟩, ⟨200000 - 86400, true⟩]
    = [⟨200000 - 86400, true⟩] := by decide
example : cleanOldBackups 0 200000 [⟨0, true⟩] = [⟨0, true⟩] := by decide
example : cleanOldBackups 1 200000 [⟨0, false⟩, ⟨1, true⟩]
    = [⟨0, false⟩, ⟨1, true⟩] := by decide
example : mutationsCovered []
    (modifyTelemetryAdvancedTrace [⟨0, true, false, StoreKind.sqlite⟩]) = false := by decide
example : mutationsCovered []
    (modifyTelemetryIdsTrace [⟨0, true, false, StoreKind.sqlite⟩]) = true := by decide
example : cleanCacheDirStep true true ⟨some [⟨"a", FsKind.file, true⟩], []⟩
    = ⟨some [⟨"a", FsKind.file, true⟩], [[⟨"a", FsKind.file, true⟩]]⟩ := by decide
example : cleanCacheDirStep false true ⟨some [⟨"a", FsKind.file, true⟩], []⟩
    = ⟨some [], [[⟨"a", FsKind.file, true⟩]]⟩ := by decide

/-! ## Helper lemmas -/

/-- A fold that only filters at each step keeps exactly the initial
elements passing every step's predicate. -/
theorem mem_foldl_filter {α β : Type} (p : β → α → Bool) (l : List β)
    (init : List α) (a : α) :
    a ∈ l.foldl (fun acc x => acc.filter (p x)) init ↔
      a ∈ init ∧ ∀ x ∈ l, p x a = true := by
  induction l generalizing init with
  | nil => simp
  | cons x xs ih =>
    simp only [List.foldl_cons, ih, List.mem_filter, List.mem_cons]
    constructor
    · rintro ⟨⟨ha, hx⟩, hxs⟩
      exact ⟨ha, by rintro y (rfl | hy); exact hx; exact hxs y hy⟩
    · rintro ⟨ha, h⟩
      exact ⟨⟨ha, h x (Or.inl rfl)⟩, fun y hy => h y (Or.inr hy)⟩

/-- Membership through the doubly nested keyword/column purge fold. -/
theorem mem_nested_foldl_filter {α β γ : Type} (q : β → γ → α → Bool)
    (outer : List β) (inner : List γ) (init : List α) (a : α) :
    a ∈ outer.foldl (fun acc x =>
        inner.foldl (fun acc2 y => acc2.filter (q x y)) acc) init ↔
      a ∈ init ∧ ∀ x ∈ outer, ∀ y ∈ inner, q x y a = true := by
  induction outer generalizing init with
  | nil => simp
  | cons x xs ih =>
    simp only [List.foldl_cons, ih, mem_foldl_filter, List.mem_cons]
    constructor
    · rintro ⟨⟨ha, hx⟩, hxs⟩
      exact ⟨ha, by rintro z (rfl | hz); exact hx; exact hxs z hz⟩
    · rintro ⟨ha, h⟩
      exact ⟨⟨ha, h x (Or.inl rfl)⟩, fun z hz => h z (Or.inr hz)⟩

/-- `rotateRowVal` never changes the key of a row. -/
theorem rotateRowVal_key (tk : List String) (nm ns : String) (r : String × String) :
    (rotateRowVal tk nm ns r).1 = r.1 := by
  induction tk generalizing r with
  | nil => rfl
  | cons key rest ih =>
    simp only [rotateRowVal, List.foldl_cons] at *
    by_cases h : r.1 == key
    · simpa [h] using ih _
    · simpa [h] using ih _

/-- Row whose key is not a telemetry key is untouched. -/
theorem rotateRowVal_not_mem (tk : List String) (nm ns : String)
    (r : String × String) (h : r.1 ∉ tk) :
    rotateRowVal tk nm ns r = r := by
  induction tk generalizing r with
  | nil => rfl
  | cons key rest ih =>
    simp only [rotateRowVal, List.foldl_cons]
    have hkey : r.1 ≠ key := fun he => h (he ▸ List.mem_cons_self _ _)
    have hk : (r.1 == key) = false := by simpa using hkey
    have hmem : r.1 ∉ rest := fun hm => h (List.mem_cons_of_mem _ hm)
    simpa [hk, rotateRowVal] using ih r hmem

/-- Row whose key is a telemetry key: final value is the session pool
identifier when the key is session-like, the machine pool one otherwise. -/
theorem rotateRowVal_of_mem (tk : List String) (nm ns : String)
    (r : String × String) (h : r.1 ∈ tk) :
    rotateRowVal tk nm ns r = (r.1, if lowerHasSession r.1 then ns else nm) := by
  induction tk generalizing r with
  | nil => simp at h
  | cons key rest ih =>
    simp only [rotateRowVal, List.foldl_cons]
    by_cases hk : r.1 == key
    · have hkey : r.1 = key := by simpa using hk
      subst hkey
      by_cases hmem : r.1 ∈ rest
      · simpa [hk, rotateRowVal] using ih (r.1, if lowerHasSession r.1 then ns else nm) hmem
      · have := rotateRowVal_not_mem rest nm ns
          (r.1, if lowerHasSession r.1 then ns else nm) hmem
        simpa [hk, rotateRowVal] using this
    · have hkey : r.1 ≠ key := by simpa using hk
      have hmem : r.1 ∈ rest := by
        rcases List.mem_cons.mp h with h1 | h1
        · exact absurd h1 hkey
        · exact h1
      simpa [hk, rotateRowVal] using ih r hmem

/-- The telemetry update loop of the SQLite rotation is the row-wise map
of `rotateRowVal`. -/
theorem sqlite_update_fold_eq_map (tk : List String) (nm ns : String)
    (rows : List (String × String)) :
    tk.foldl (fun acc key =>
      if lowerHasSession key then
        acc.map fun r => if r.1 == key then (r.1, ns) else r
      else
        acc.map fun r => if r.1 == key then (r.1, nm) else r) rows
    = rows.map (rotateRowVal tk nm ns) := by
  induction tk generalizing rows with
  | nil => rw [show rotateRowVal ([] : List String) nm ns = id from rfl, List.map_id]; rfl
  | cons key rest ih =>
    simp only [List.foldl_cons]
    have hbody : (if lowerHasSession key then
        rows.map fun r => if r.1 == key then (r.1, ns) else r
      else
        rows.map fun r => if r.1 == key then (r.1, nm) else r)
        = rows.map fun r =>
            if r.1 == key then (r.1, if lowerHasSession key then ns else nm) else r := by
      by_cases h : lowerHasSession key <;> simp [h]
    rw [hbody, ih, List.map_map]
    exact List.map_congr_left fun r _ => rfl

/-- The session-key deletion loop is a single filter. -/
theorem delete_fold_eq_filter (sk : List String) (rows : List (String × String)) :
    sk.foldl (fun acc key => acc.filter fun r => !(r.1 == key)) rows
    = rows.filter fun r => sk.all fun key => !(r.1 == key) := by
  induction sk generalizing rows with
  | nil => simp
  | cons key rest ih =>
    simp only [List.foldl_cons, ih, List.filter_filter]
    exact List.filter_congr fun r _ => by
      simp [List.all_cons, Bool.and_comm]

/-- Characterisation of the SQLite rotation result. -/
theorem modifySqlite_fst (tk sk : List String) (nm ns : String)
    (rows : List (String × String)) :
    (modifySqliteTelemetryAdvanced tk sk nm ns rows).1
    = (rows.map (rotateRowVal tk nm ns)).filter fun r =>
        sk.all fun key => !(r.1 == key) := by
  show sk.foldl (fun acc key => acc.filter fun r => !(r.1 == key))
      (tk.foldl (fun acc key =>
        if lowerHasSession key then
          acc.map fun r => if r.1 == key then (r.1, ns) else r
        else
          acc.map fun r => if r.1 == key then (r.1, nm) else r) rows)
    = _
  rw [sqlite_update_fold_eq_map, delete_fold_eq_filter]

/-- The guarded JSON telemetry-update fold computes the same data as the
unguarded row-wise map (the guard `key in data` only matters for the
`modified` flag: when no row has the key, the map is the identity). -/
theorem json_step1_fst (tk : List String) (nm ns : String)
    (q : List (String × String) × Bool) :
    (tk.foldl (fun (p : List (String × String) × Bool) key =>
      if hasKey p.1 key then
        (p.1.map (fun r => if r.1 == key then
            (r.1, if lowerHasSession key then ns else nm) else r),
         true)
      else p) q).1
    = q.1.map (rotateRowVal tk nm ns) := by
  induction tk generalizing q with
  | nil => rw [show rotateRowVal ([] : List String) nm ns = id from rfl, List.map_id]; rfl
  | cons key rest ih =>
    simp only [List.foldl_cons]
    by_cases h : hasKey q.1 key
    · rw [if_pos h, ih, List.map_map]
      exact List.map_congr_left fun r _ => rfl
    · rw [if_neg h, ih]
      have hnone : ∀ r ∈ q.1, (r.1 == key) = false := by
        intro r hr
        by_contra hc
        exact h (List.any_eq_true.mpr ⟨r, hr, by simpa using hc⟩)
      refine List.map_congr_left fun r hr => ?_
      show rotateRowVal rest nm ns r = rotateRowVal (key :: rest) nm ns r
      simp only [rotateRowVal, List.foldl_cons, hnone r hr, Bool.false_eq_true,
        if_false]

/-- The guarded JSON session-key removal fold computes the same data as a
single filter. -/
theorem json_step2_fst (sk : List String) (q : List (String × String) × Bool) :
    (sk.foldl (fun (p : List (String × String) × Bool) key =>
      if hasKey p.1 key then
        (p.1.filter fun r => !(r.1 == key), true)
      else p) q).1
    = q.1.filter fun r => sk.all fun key => !(r.1 == key) := by
  induction sk generalizing q with
  | nil => simp
  | cons key rest ih =>
    simp only [List.foldl_cons]
    by_cases h : hasKey q.1 key
    · rw [if_pos h, ih, List.filter_filter]
      exact List.filter_congr fun r _ => by
        simp [List.all_cons, Bool.and_comm]
    · rw [if_neg h, ih]
      have hnone : ∀ r ∈ q.1, (r.1 == key) = false := by
        intro r hr
        by_contra hc
        exact h (List.any_eq_true.mpr ⟨r, hr, by simpa using hc⟩)
      exact List.filter_congr fun r hr => by
        simp [List.all_cons, hnone r hr]

/-- Characterisation of the JSON rotation result. -/
theorem modifyJson_fst (tk sk : List String) (nm ns : String)
    (data : List (String × String)) :
    (modifyJsonTelemetryAdvanced tk sk nm ns data).1
    = (data.map (rotateRowVal tk nm ns)).filter fun r =>
        sk.all fun key => !(r.1 == key) := by
  show (sk.foldl (fun (p : List (String × String) × Bool) key =>
      if hasKey p.1 key then
        (p.1.filter fun r => !(r.1 == key), true)
      else p)
      (tk.foldl (fun (p : List (String × String) × Bool) key =>
        if hasKey p.1 key then
          (p.1.map (fun r => if r.1 == key then
              (r.1, if lowerHasSession key then ns else nm) else r),
           true)
        else p) (data, false))).1
    = _
  rw [json_step2_fst, json_step1_fst]

/-- `find?` on a key predicate commutes with a key-preserving map. -/
theorem find?_key_map (f : String × String → String × String)
    (hf : ∀ r, (f r).1 = r.1) (k : String) (l : List (String × String)) :
    (l.map f).find? (fun r => r.1 == k) = (l.find? fun r => r.1 == k).map f := by
  induction l with
  | nil => rfl
  | cons r rest ih =>
    by_cases h : r.1 = k
    · have h1 : ((f r).1 == k) = true := by simp [hf, h]
      have h2 : (r.1 == k) = true := by simp [h]
      simp [List.find?_cons, h1, h2]
    · have h1 : ((f r).1 == k) = false := by simp [hf, h]
      have h2 : (r.1 == k) = false := by simp [h]
      simp [List.find?_cons, h1, h2, ih]

/-- Filtering by a predicate that keeps every row with key `k` does not
change `find?` on key `k`. -/
theorem find?_key_filter (q : String × String → Bool) (k : String)
    (hq : ∀ r, r.1 = k → q r = true) (l : List (String × String)) :
    (l.filter q).find? (fun r => r.1 == k) = l.find? fun r => r.1 == k := by
  induction l with
  | nil => rfl
  | cons r rest ih =>
    by_cases h : r.1 = k
    · have h2 : (r.1 == k) = true := by simp [h]
      simp [List.filter_cons, hq r h, List.find?_cons, h2]
    · have h2 : (r.1 == k) = false := by simp [h]
      by_cases hqr : q r
      · simp [List.filter_cons, hqr, List.find?_cons, h2, ih]
      · simp [List.filter_cons, hqr, List.find?_cons, h2, ih]

/-- Filtering by a predicate that drops every row with key `k` removes the
key from the store. -/
theorem hasKey_filter_out (q : String × String → Bool) (k : String)
    (hq : ∀ r, r.1 = k → q r = false) (l : List (String × String)) :
    hasKey (l.filter q) k = false := by
  simp only [hasKey, List.any_filter]
  rw [List.any_eq_false]
  intro r _
  by_cases h : r.1 = k
  · simp [hq r h]
  · simp [h]

/-- A fold whose step fixes the accumulator on every list element is the
identity. -/
theorem foldl_fix_of_step_id {α β : Type} (l : List β) (f : α → β → α) (a : α)
    (h : ∀ x ∈ l, f a x = a) : l.foldl f a = a := by
  induction l with
  | nil => rfl
  | cons x xs ih =>
    rw [List.foldl_cons, h x (List.mem_cons_self _ _)]
    exact ih fun y hy => h y (List.mem_cons_of_mem _ hy)

/-- When no policy key occurs in the JSON object, the rotation leaves the
object untouched, reports `modified = false` (so the file is not
rewritten) and returns `True`. -/
theorem modifyJson_no_keys (tk sk : List String) (nm ns : String)
    (data : List (String × String))
    (htk : ∀ key ∈ tk, hasKey data key = false)
    (hsk : ∀ key ∈ sk, hasKey data key = false) :
    modifyJsonTelemetryAdvanced tk sk nm ns data = (data, false, true) := by
  show (let step1 := tk.foldl _ (data, false)
        let step2 := sk.foldl _ step1
        (step2.1, step2.2, true)) = (data, false, true)
  have h1 : tk.foldl (fun (p : List (String × String) × Bool) key =>
      if hasKey p.1 key then
        (p.1.map (fun r => if r.1 == key then
            (r.1, if lowerHasSession key then ns else nm) else r),
         true)
      else p) (data, false) = (data, false) :=
    foldl_fix_of_step_id tk _ _ fun key hkey => by simp [htk key hkey]
  have h2 : sk.foldl (fun (p : List (String × String) × Bool) key =>
      if hasKey p.1 key then
        (p.1.filter fun r => !(r.1 == key), true)
      else p) (data, false) = (data, false) :=
    foldl_fix_of_step_id sk _ _ fun key hkey => by simp [hsk key hkey]
  simp only [h1, h2]

/-- When no policy key occurs in the SQLite store, the rotation leaves the
rows untouched and still returns `True`. -/
theorem modifySqlite_no_keys (tk sk : List String) (nm ns : String)
    (rows : List (String × String))
    (htk : ∀ key ∈ tk, hasKey rows key = false)
    (hsk : ∀ key ∈ sk, hasKey rows key = false) :
    modifySqliteTelemetryAdvanced tk sk nm ns rows = (rows, true) := by
  have habs : ∀ r ∈ rows, r.1 ∉ tk := by
    intro r hr hmem
    have := htk r.1 hmem
    simp only [hasKey, List.any_eq_false] at this
    exact absurd (by simp : (r.1 == r.1) = true) (by simpa using this r hr)
  have hmap : rows.map (rotateRowVal tk nm ns) = rows := by
    rw [List.map_congr_left fun r hr => rotateRowVal_not_mem tk nm ns r (habs r hr)]
    exact List.map_id rows
  have hfil : (rows.filter fun r => sk.all fun key => !(r.1 == key)) = rows := by
    rw [List.filter_eq_self]
    intro r hr
    rw [List.all_eq_true]
    intro key hkey
    have := hsk key hkey
    simp only [hasKey, List.any_eq_false] at this
    simpa using this r hr
  have h1 := modifySqlite_fst tk sk nm ns rows
  rw [hmap, hfil] at h1
  have h2 : (modifySqliteTelemetryAdvanced tk sk nm ns rows).2 = true := rfl
  exact Prod.ext h1 h2

/-- A syntactically valid generated identifier is 36 characters long, so
it differs from the one-character value `"X"`. -/
theorem uuid_ne_X (s : String) (h : isUuidCanonical s = true) : s ≠ "X" := by
  intro he
  subst he
  exact absurd h (by decide)

/-- Looking up a telemetry key that is not a session key, after the
map/filter form common to both rotation embeddings. -/
theorem lookup_after_rotation (tk sk : List String) (nm ns : String)
    (l : List (String × String)) (k : String) (hk : k ∈ tk) (hknot : k ∉ sk)
    (v : String) (hv : lookupVal l k = some v) :
    lookupVal ((l.map (rotateRowVal tk nm ns)).filter fun r =>
        sk.all fun key => !(r.1 == key)) k
      = some (if lowerHasSession k then ns else nm) := by
  have hq : ∀ r : String × String, r.1 = k →
      (sk.all fun key => !(r.1 == key)) = true := by
    intro r hr
    rw [List.all_eq_true]
    intro key hkey
    have : k ≠ key := fun he => hknot (he ▸ hkey)
    simp [hr, this]
  unfold lookupVal at hv ⊢
  rw [find?_key_filter _ k hq, find?_key_map (rotateRowVal tk nm ns)
    (rotateRowVal_key tk nm ns) k l]
  rcases Option.map_eq_some'.mp hv with ⟨r0, hr0, hval⟩
  have hkey0 : r0.1 = k := by simpa using List.find?_some hr0
  have hmem : r0.1 ∈ tk := hkey0 ▸ hk
  rw [hr0]
  simp only [Option.map_some']
  rw [rotateRowVal_of_mem tk nm ns r0 hmem, hkey0]

/-- Removing a session key after the map/filter form common to both
rotation embeddings. -/
theorem hasKey_after_rotation (tk sk : List String) (nm ns : String)
    (l : List (String × String)) (k : String) (hk : k ∈ sk) :
    hasKey ((l.map (rotateRowVal tk nm ns)).filter fun r =>
        sk.all fun key => !(r.1 == key)) k = false := by
  apply hasKey_filter_out
  intro r hr
  rw [List.all_eq_false]
  exact ⟨k, hk, by simp [hr]⟩

/-- A leading `%` matches exactly when the rest of the pattern matches
some suffix of the text. -/
theorem likeMatch_percent (ps : List Char) (t : List Char) :
    likeMatch ('%' :: ps) t = true ↔ ∃ s, s <:+ t ∧ likeMatch ps s = true := by
  show (if ('%' : Char) == '%' then t.tails.any fun s => likeMatch ps s
    else match t with
      | [] => false
      | c :: t2 =>
        (('%' : Char) == '_' || asciiLower '%' == asciiLower c) && likeMatch ps t2) = true
    ↔ _
  rw [if_pos (by decide)]
  rw [List.any_eq_true]
  constructor
  · rintro ⟨s, hs, hm⟩
    exact ⟨s, (List.mem_tails s t).mp hs, hm⟩
  · rintro ⟨s, hs, hm⟩
    exact ⟨s, (List.mem_tails s t).mpr hs, hm⟩

/-- A wildcard-free keyword followed by `%` matches exactly the texts of
which it is an ASCII-case-insensitive leading segment. -/
theorem likeMatch_plain (kw : List Char)
    (hk : ∀ ch ∈ kw, ch ≠ '%' ∧ ch ≠ '_') (t : List Char) :
    likeMatch (kw ++ ['%']) t = true ↔
      kw.map asciiLower <+: t.map asciiLower := by
  induction kw generalizing t with
  | nil =>
    simp only [List.nil_append, List.map_nil]
    constructor
    · intro _
      exact List.nil_prefix
    · intro _
      exact (likeMatch_percent [] t).mpr ⟨[], List.nil_suffix, rfl⟩
  | cons c kw2 ih =>
    have hc := hk c (List.mem_cons_self _ _)
    have hcp : (c == '%') = false := by
      simpa using hc.1
    have hcu : (c == '_') = false := by
      simpa using hc.2
    have hk2 : ∀ ch ∈ kw2, ch ≠ '%' ∧ ch ≠ '_' :=
      fun ch hch => hk ch (List.mem_cons_of_mem _ hch)
    cases t with
    | nil =>
      show (if c == '%' then _ else false) = true ↔ _
      rw [if_neg (by simp [hcp])]
      simp
    | cons d t2 =>
      show (if c == '%' then ((d :: t2).tails.any fun s => likeMatch (kw2 ++ ['%']) s)
        else (c == '_' || asciiLower c == asciiLower d) && likeMatch (kw2 ++ ['%']) t2) = true
        ↔ _
      rw [if_neg (by simp [hcp])]
      simp only [hcu, Bool.false_or, List.map_cons, List.cons_prefix_cons,
        Bool.and_eq_true, beq_iff_eq, ih hk2 t2]

/-- The source's `LIKE '%keyword%'` pattern, for a wildcard-free keyword,
matches exactly the texts containing the keyword as an
ASCII-case-insensitive substring. -/
theorem likeMatch_likePat_iff_substr (kw : List Char)
    (hk : ∀ ch ∈ kw, ch ≠ '%' ∧ ch ≠ '_') (t : List Char) :
    likeMatch ('%' :: (kw ++ ['%'])) t = true ↔
      kw.map asciiLower <:+: t.map asciiLower := by
  rw [likeMatch_percent]
  constructor
  · rintro ⟨s, hs, hm⟩
    exact List.infix_iff_prefix_suffix.mpr
      ⟨s.map asciiLower, (likeMatch_plain kw hk s).mp hm, List.IsSuffix.map _ hs⟩
  · intro h
    rcases List.infix_iff_prefix_suffix.mp h with ⟨u, hu1, hu2⟩
    rw [List.suffix_iff_eq_drop] at hu2
    refine ⟨t.drop ((t.map asciiLower).length - u.length), List.drop_suffix _ _, ?_⟩
    rw [likeMatch_plain kw hk]
    rw [List.map_drop]
    exact hu2 ▸ hu1

/-! ## Claim theorems -/

/-- Claim C2: for every store (SQLite `ItemTable` or flat JSON object)
containing key `machineId` with value `"X"` and key `sessionToken`,
rotating under the policy `{telemetryKeys: ["machineId"], sessionKeys:
["sessionToken"]}` leaves `machineId` present, bound to the freshly
generated identifier (syntactically valid, and necessarily different from
`"X"`), and removes `sessionToken` entirely; policy keys absent from a
store are skipped silently, the store is returned unchanged and the
operation still succeeds.  `nm`/`ns` are the store's two `uuid.uuid4()`
outputs; the hypothesis `isUuidCanonical nm` records the generator's
syntactic guarantee. -/
theorem rotation_correctness
    (nm ns : String) (hnm : isUuidCanonical nm = true)
    (rows data rows2 : List (String × String))
    (hrowM : lookupVal rows "machineId" = some "X")
    (hrowS : hasKey rows "sessionToken" = true)
    (hdatM : lookupVal data "machineId" = some "X")
    (hdatS : hasKey data "sessionToken" = true)
    (habsM : hasKey rows2 "machineId" = false)
    (habsS : hasKey rows2 "sessionToken" = false) :
    lookupVal (modifySqliteTelemetryAdvanced ["machineId"] ["sessionToken"]
        nm ns rows).1 "machineId" = some nm
    ∧ hasKey (modifySqliteTelemetryAdvanced ["machineId"] ["sessionToken"]
        nm ns rows).1 "sessionToken" = false
    ∧ (modifySqliteTelemetryAdvanced ["machineId"] ["sessionToken"] nm ns rows).2 = true
    ∧ lookupVal (modifyJsonTelemetryAdvanced ["machineId"] ["sessionToken"]
        nm ns data).1 "machineId" = some nm
    ∧ hasKey (modifyJsonTelemetryAdvanced ["machineId"] ["sessionToken"]
        nm ns data).1 "sessionToken" = false
    ∧ (modifyJsonTelemetryAdvanced ["machineId"] ["sessionToken"] nm ns data).2.2 = true
    ∧ isUuidCanonical nm = true ∧ nm ≠ "X"
    ∧ modifySqliteTelemetryAdvanced ["machineId"] ["sessionToken"] nm ns rows2
        = (rows2, true)
    ∧ modifyJsonTelemetryAdvanced ["machineId"] ["sessionToken"] nm ns rows2
        = (rows2, false, true) := by
  have hmemM : "machineId" ∈ ["machineId"] := List.mem_singleton.mpr rfl
  have hnotM : "machineId" ∉ ["sessionToken"] := by decide
  have hmemS : "sessionToken" ∈ ["sessionToken"] := List.mem_singleton.mpr rfl
  have hsess : lowerHasSession "machineId" = false := by decide
  refine ⟨?_, ?_, rfl, ?_, ?_, rfl, hnm, uuid_ne_X nm hnm, ?_, ?_⟩
  · rw [modifySqlite_fst]
    have := lookup_after_rotation ["machineId"] ["sessionToken"] nm ns rows
      "machineId" hmemM hnotM "X" hrowM
    rwa [hsess] at this
  · rw [modifySqlite_fst]
    exact hasKey_after_rotation _ _ nm ns rows "sessionToken" hmemS
  · rw [modifyJson_fst]
    have := lookup_after_rotation ["machineId"] ["sessionToken"] nm ns data
      "machineId" hmemM hnotM "X" hdatM
    rwa [hsess] at this
  · rw [modifyJson_fst]
    exact hasKey_after_rotation _ _ nm ns data "sessionToken" hmemS
  · exact modifySqlite_no_keys _ _ nm ns rows2
      (by intro key hkey; rw [List.mem_singleton] at hkey; exact hkey ▸ habsM)
      (by intro key hkey; rw [List.mem_singleton] at hkey; exact hkey ▸ habsS)
  · exact modifyJson_no_keys _ _ nm ns rows2
      (by intro key hkey; rw [List.mem_singleton] at hkey; exact hkey ▸ habsM)
      (by intro key hkey; rw [List.mem_singleton] at hkey; exact hkey ▸ habsS)

/-- Witness for C2 at a concrete store, with a concrete canonical UUID. -/
theorem rotation_correctness_witness :
    lookupVal (modifySqliteTelemetryAdvanced ["machineId"] ["sessionToken"]
        "0f1e2d3c-4b5a-6978-8796-a5b4c3d2e1f0" "11111111-2222-3333-4444-555555555555"
        [("machineId", "X"), ("sessionToken", "tok")]).1 "machineId"
      = some "0f1e2d3c-4b5a-6978-8796-a5b4c3d2e1f0"
    ∧ hasKey (modifySqliteTelemetryAdvanced ["machineId"] ["sessionToken"]
        "0f1e2d3c-4b5a-6978-8796-a5b4c3d2e1f0" "11111111-2222-3333-4444-555555555555"
        [("machineId", "X"), ("sessionToken", "tok")]).1 "sessionToken" = false
    ∧ (modifySqliteTelemetryAdvanced ["machineId"] ["sessionToken"]
        "0f1e2d3c-4b5a-6978-8796-a5b4c3d2e1f0" "11111111-2222-3333-4444-555555555555"
        [("machineId", "X"), ("sessionToken", "tok")]).2 = true
    ∧ lookupVal (modifyJsonTelemetryAdvanced ["machineId"] ["sessionToken"]
        "0f1e2d3c-4b5a-6978-8796-a5b4c3d2e1f0" "11111111-2222-3333-4444-555555555555"
        [("machineId", "X"), ("sessionToken", "tok")]).1 "machineId"
      = some "0f1e2d3c-4b5a-6978-8796-a5b4c3d2e1f0"
    ∧ hasKey (modifyJsonTelemetryAdvanced ["machineId"] ["sessionToken"]
        "0f1e2d3c-4b5a-6978-8796-a5b4c3d2e1f0" "11111111-2222-3333-4444-555555555555"
        [("machineId", "X"), ("sessionToken", "tok")]).1 "sessionToken" = false
    ∧ (modifyJsonTelemetryAdvanced ["machineId"] ["sessionToken"]
        "0f1e2d3c-4b5a-6978-8796-a5b4c3d2e1f0" "11111111-2222-3333-4444-555555555555"
        [("machineId", "X"), ("sessionToken", "tok")]).2.2 = true
    ∧ isUuidCanonical "0f1e2d3c-4b5a-6978-8796-a5b4c3d2e1f0" = true
    ∧ "0f1e2d3c-4b5a-6978-8796-a5b4c3d2e1f0" ≠ "X"
    ∧ modifySqliteTelemetryAdvanced ["machineId"] ["sessionToken"]
        "0f1e2d3c-4b5a-6978-8796-a5b4c3d2e1f0" "11111111-2222-3333-4444-555555555555"
        [("otherData", "1")] = ([("otherData", "1")], true)
    ∧ modifyJsonTelemetryAdvanced ["machineId"] ["sessionToken"]
        "0f1e2d3c-4b5a-6978-8796-a5b4c3d2e1f0" "11111111-2222-3333-4444-555555555555"
        [("otherData", "1")] = ([("otherData", "1")], false, true) :=
  rotation_correctness
    "0f1e2d3c-4b5a-6978-8796-a5b4c3d2e1f0" "11111111-2222-3333-4444-555555555555"
    (by decide)
    [("machineId", "X"), ("sessionToken", "tok")]
    [("machineId", "X"), ("sessionToken", "tok")]
    [("otherData", "1")]
    (by decide) (by decide) (by decide) (by decide) (by decide) (by decide)

/-- Claim C9: one rotation invocation generates exactly one machine
identifier and one session identifier for the whole store — here the
single parameters `nm` and `ns`, which stand for the two `uuid.uuid4()`
calls made once at the top of `_modify_sqlite_telemetry_advanced` /
`_modify_json_telemetry_advanced`.  Consequently two distinct non-session
telemetry keys `k1`, `k2` present in a store both end up bound to the
SAME value `nm`, and a session-like key `k3` to the single other value
`ns`; distinct keys are never given distinct fresh identifiers. -/
theorem single_identifier_per_store (tk sk : List String) (nm ns : String)
    (rows data : List (String × String)) (k1 k2 k3 : String)
    (hk1 : k1 ∈ tk) (hk1s : k1 ∉ sk) (hk2 : k2 ∈ tk) (hk2s : k2 ∉ sk)
    (hk3 : k3 ∈ tk) (hk3s : k3 ∉ sk)
    (hns1 : lowerHasSession k1 = false) (hns2 : lowerHasSession k2 = false)
    (hns3 : lowerHasSession k3 = true)
    (v1 v2 v3 w1 w2 w3 : String)
    (hv1 : lookupVal rows k1 = some v1) (hv2 : lookupVal rows k2 = some v2)
    (hv3 : lookupVal rows k3 = some v3)
    (hw1 : lookupVal data k1 = some w1) (hw2 : lookupVal data k2 = some w2)
    (hw3 : lookupVal data k3 = some w3) :
    lookupVal (modifySqliteTelemetryAdvanced tk sk nm ns rows).1 k1 = some nm
    ∧ lookupVal (modifySqliteTelemetryAdvanced tk sk nm ns rows).1 k2 = some nm
    ∧ lookupVal (modifySqliteTelemetryAdvanced tk sk nm ns rows).1 k3 = some ns
    ∧ lookupVal (modifyJsonTelemetryAdvanced tk sk nm ns data).1 k1 = some nm
    ∧ lookupVal (modifyJsonTelemetryAdvanced tk sk nm ns data).1 k2 = some nm
    ∧ lookupVal (modifyJsonTelemetryAdvanced tk sk nm ns data).1 k3 = some ns := by
  refine ⟨?_, ?_, ?_, ?_, ?_, ?_⟩
  · rw [modifySqlite_fst]
    have := lookup_after_rotation tk sk nm ns rows k1 hk1 hk1s v1 hv1
    rwa [hns1] at this
  · rw [modifySqlite_fst]
    have := lookup_after_rotation tk sk nm ns rows k2 hk2 hk2s v2 hv2
    rwa [hns2] at this
  · rw [modifySqlite_fst]
    have := lookup_after_rotation tk sk nm ns rows k3 hk3 hk3s v3 hv3
    rwa [hns3] at this
  · rw [modifyJson_fst]
    have := lookup_after_rotation tk sk nm ns data k1 hk1 hk1s w1 hw1
    rwa [hns1] at this
  · rw [modifyJson_fst]
    have := lookup_after_rotation tk sk nm ns data k2 hk2 hk2s w2 hw2
    rwa [hns2] at this
  · rw [modifyJson_fst]
    have := lookup_after_rotation tk sk nm ns data k3 hk3 hk3s w3 hw3
    rwa [hns3] at this

/-- Witness for C9: the default policy keys over a concrete store;
`machineId` and `deviceId` both receive the one machine identifier. -/
theorem single_identifier_per_store_witness :
    lookupVal (modifySqliteTelemetryAdvanced ["machineId", "deviceId", "sessionId"]
        ["authToken"] "NM" "NS"
        [("machineId", "a"), ("deviceId", "b"), ("sessionId", "c")]).1 "machineId"
      = some "NM"
    ∧ lookupVal (modifySqliteTelemetryAdvanced ["machineId", "deviceId", "sessionId"]
        ["authToken"] "NM" "NS"
        [("machineId", "a"), ("deviceId", "b"), ("sessionId", "c")]).1 "deviceId"
      = some "NM"
    ∧ lookupVal (modifySqliteTelemetryAdvanced ["machineId", "deviceId", "sessionId"]
        ["authToken"] "NM" "NS"
        [("machineId", "a"), ("deviceId", "b"), ("sessionId", "c")]).1 "sessionId"
      = some "NS"
    ∧ lookupVal (modifyJsonTelemetryAdvanced ["machineId", "deviceId", "sessionId"]
        ["authToken"] "NM" "NS"
        [("machineId", "a"), ("deviceId", "b"), ("sessionId", "c")]).1 "machineId"
      = some "NM"
    ∧ lookupVal (modifyJsonTelemetryAdvanced ["machineId", "deviceId", "sessionId"]
        ["authToken"] "NM" "NS"
        [("machineId", "a"), ("deviceId", "b"), ("sessionId", "c")]).1 "deviceId"
      = some "NM"
    ∧ lookupVal (modifyJsonTelemetryAdvanced ["machineId", "deviceId", "sessionId"]
        ["authToken"] "NM" "NS"
        [("machineId", "a"), ("deviceId", "b"), ("sessionId", "c")]).1 "sessionId"
      = some "NS" :=
  single_identifier_per_store ["machineId", "deviceId", "sessionId"] ["authToken"]
    "NM" "NS"
    [("machineId", "a"), ("deviceId", "b"), ("sessionId", "c")]
    [("machineId", "a"), ("deviceId", "b"), ("sessionId", "c")]
    "machineId" "deviceId" "sessionId"
    (by decide) (by decide) (by decide) (by decide) (by decide) (by decide)
    (by decide) (by decide) (by decide)
    "a" "b" "c" "a" "b" "c"
    (by decide) (by decide) (by decide) (by decide) (by decide) (by decide)

/-- Claim C10: a JSON store containing none of the policy's telemetry or
session keys is not rewritten — the `modified` flag stays `false`, so the
`json.dump` call is skipped and the file bytes are untouched — and the
operation still returns `True`. -/
theorem json_rotation_no_keys_no_write (tk sk : List String) (nm ns : String)
    (data : List (String × String))
    (htk : ∀ key ∈ tk, hasKey data key = false)
    (hsk : ∀ key ∈ sk, hasKey data key = false) :
    modifyJsonTelemetryAdvanced tk sk nm ns data = (data, false, true) :=
  modifyJson_no_keys tk sk nm ns data htk hsk

/-- Witness for C10 at a concrete store containing none of the keys. -/
theorem json_rotation_no_keys_no_write_witness :
    modifyJsonTelemetryAdvanced ["machineId", "deviceId"] ["authToken"] "NM" "NS"
      [("otherData", "keep"), ("window", "1")]
    = ([("otherData", "keep"), ("window", "1")], false, true) :=
  json_rotation_no_keys_no_write ["machineId", "deviceId"] ["authToken"] "NM" "NS"
    [("otherData", "keep"), ("window", "1")] (by decide) (by decide)

/-- Claim C3 counterexample: the claim asserts case-SENSITIVE substring
matching, with rows containing the keyword only in a different letter
case retained.  The purge deletes the row `["ACCOUNT-42"]` for keyword
`"account"` even though the raw text does not contain `"account"`
case-sensitively (`hasSub`, the embedding of Python's `in`, is `false`):
SQLite's default `LIKE` is ASCII-case-insensitive. -/
theorem keyword_purge_case_counterexample :
    cleanKeywordRows ["account"] 1 [["ACCOUNT-42"]] = []
    ∧ hasSub "ACCOUNT-42".toList "account".toList = false := by decide

/-- Claim C3 (amended): during keyword purge of a non-cache table, for
wildcard-free keywords, the matching is ASCII-case-INSENSITIVE (SQLite's
default `LIKE '%keyword%'` semantics).  In the advanced cleaner
(`_clean_sqlite_advanced`), which iterates every column, exactly those
rows having some column whose value contains some keyword as an
ASCII-case-insensitive substring are deleted.  In the basic cleaner
(`_clean_sqlite_database`), keyword deletion iterates only the columns
whose first-row `typeof` sampled as text/varchar (`textCols`), so
exactly the rows matching in some SAMPLED column are deleted — a row
containing a keyword only in a non-sampled column is retained. -/
theorem keyword_purge_amended (keywords : List String) (ncols : Nat)
    (textCols : List Nat) (rows rowsB : List (List String)) (r rB : List String)
    (hkw : ∀ kw ∈ keywords, ∀ ch ∈ kw.toList, ch ≠ '%' ∧ ch ≠ '_') :
    (r ∈ cleanKeywordRows keywords ncols rows ↔
      r ∈ rows ∧ ∀ kw ∈ keywords, ∀ col < ncols,
        ¬ (kw.toList.map asciiLower <:+: ((r.getD col "").toList.map asciiLower)))
    ∧ (rB ∈ cleanKeywordRowsBasic keywords textCols rowsB ↔
      rB ∈ rowsB ∧ ∀ kw ∈ keywords, ∀ col ∈ textCols,
        ¬ (kw.toList.map asciiLower <:+: ((rB.getD col "").toList.map asciiLower))) := by
  have key : ∀ kw ∈ keywords, ∀ s : String,
      ((!(likeMatch (likePat kw) s.toList)) = true ↔
        ¬ (kw.toList.map asciiLower <:+: (s.toList.map asciiLower))) := by
    intro kw hkw2 s
    rw [Bool.not_eq_true']
    rw [← likeMatch_likePat_iff_substr kw.toList (hkw kw hkw2) s.toList]
    rw [show ('%' :: (kw.toList ++ ['%'])) = likePat kw from rfl]
    exact Bool.eq_false_iff
  constructor
  · unfold cleanKeywordRows
    rw [mem_nested_foldl_filter]
    constructor
    · rintro ⟨hr, h⟩
      exact ⟨hr, fun kw hkw2 col hcol =>
        (key kw hkw2 _).mp (h kw hkw2 col (List.mem_range.mpr hcol))⟩
    · rintro ⟨hr, h⟩
      exact ⟨hr, fun kw hkw2 col hcol =>
        (key kw hkw2 _).mpr (h kw hkw2 col (List.mem_range.mp hcol))⟩
  · unfold cleanKeywordRowsBasic
    rw [mem_nested_foldl_filter]
    constructor
    · rintro ⟨hr, h⟩
      exact ⟨hr, fun kw hkw2 col hcol => (key kw hkw2 _).mp (h kw hkw2 col hcol)⟩
    · rintro ⟨hr, h⟩
      exact ⟨hr, fun kw hkw2 col hcol => (key kw hkw2 _).mpr (h kw hkw2 col hcol)⟩

/-- Witness for C3 at concrete tables.  Advanced purge: `["unrelated"]`
survives and a row matching only case-insensitively does not.  Basic
purge with only column 0 sampled as text: the row matching `"account"`
only in the non-sampled column 1 is retained, while the row matching in
the sampled column 0 is deleted. -/
theorem keyword_purge_amended_witness :
    ["unrelated"] ∈ cleanKeywordRows ["account"] 1 [["ACCOUNT-42"], ["unrelated"]]
    ∧ ["ACCOUNT-42"] ∉ cleanKeywordRows ["account"] 1 [["ACCOUNT-42"], ["unrelated"]]
    ∧ ["7", "account-42"] ∈ cleanKeywordRowsBasic ["account"] [0]
        [["7", "account-42"], ["account-x", "y"]]
    ∧ ["account-x", "y"] ∉ cleanKeywordRowsBasic ["account"] [0]
        [["7", "account-42"], ["account-x", "y"]] :=
  ⟨((keyword_purge_amended ["account"] 1 [0] [["ACCOUNT-42"], ["unrelated"]]
      [["7", "account-42"], ["account-x", "y"]] ["unrelated"] ["7", "account-42"]
      (by decide)).1).mpr (by decide),
   fun hmem =>
    (((keyword_purge_amended ["account"] 1 [0] [["ACCOUNT-42"], ["unrelated"]]
      [["7", "account-42"], ["account-x", "y"]] ["ACCOUNT-42"] ["7", "account-42"]
      (by decide)).1).mp hmem).2 "account" (by decide) 0 (by decide) (by decide),
   ((keyword_purge_amended ["account"] 1 [0] [["ACCOUNT-42"], ["unrelated"]]
      [["7", "account-42"], ["account-x", "y"]] ["unrelated"] ["7", "account-42"]
      (by decide)).2).mpr (by decide),
   fun hmem =>
    (((keyword_purge_amended ["account"] 1 [0] [["ACCOUNT-42"], ["unrelated"]]
      [["7", "account-42"], ["account-x", "y"]] ["unrelated"] ["account-x", "y"]
      (by decide)).2).mp hmem).2 "account" (by decide) 0 (by decide) (by decide)⟩

/-- `find?` returns the first element satisfying the predicate when all
earlier elements fail it (the `break`-on-first-match loop). -/
theorem find?_first_match {α : Type} (p : α → Bool) (pre : List α) (x : α)
    (post : List α) (hpre : ∀ y ∈ pre, p y = false) (hx : p x = true) :
    (pre ++ x :: post).find? p = some x := by
  induction pre with
  | nil => simp [List.find?_cons, hx]
  | cons y ys ih =>
    have hy := hpre y (List.mem_cons_self _ _)
    rw [List.cons_append, List.find?_cons_of_neg _ (by simp [hy])]
    exact ih fun z hz => hpre z (List.mem_cons_of_mem _ hz)

/-- Claim C4 counterexample: the claim asserts (a) case-insensitive
pattern matching against the table name and (b) that no keyword matching
runs on a cache table.  (a) fails in both cleaners: the source tests
`pattern in table.lower()` — only the table name is lowercased — so
pattern `"Cache"` does not fire on table `"cache"` even though the
case-insensitive containment the claim describes holds, and the table's
rows survive with keyword matching run instead.  (b) fails in the basic
cleaner: on table `"session_data"` (matching cache pattern `"session"`)
keyword matching runs first and deletes one row before the table is
cleared. -/
theorem cache_table_clear_counterexample :
    cleanTableAdvanced ["Cache"] [] "cache" 1 [["x"]] = ([["x"]], 0, none)
    ∧ hasSub ("cache".toList.map asciiLower) ("Cache".toList.map asciiLower) = true
    ∧ (cleanTableBasic ["session"] ["acc"] "session_data" [0]
        [["acc-1"], ["zzz"]]).2.1 = 1
    ∧ (cleanTableBasic ["session"] ["acc"] "session_data" [0]
        [["acc-1"], ["zzz"]]).2.2 = some "session" := by decide

/-- Claim C4 (amended): a cache pattern fires on a table exactly when the
LOWERCASED table name contains the pattern verbatim (the pattern itself
is not lowercased, so patterns containing uppercase never match).  When
the first such pattern `p` fires, the advanced purge deletes all rows,
performs no keyword matching (keyword-deletion count 0) and records `p`;
the basic purge also ends with the table empty and records `p`, but runs
keyword matching before the clear.  Keyword matching is the whole effect
exactly on tables matching no pattern. -/
theorem cache_table_clear_amended (pre post keywords : List String) (p : String)
    (tableName : String) (ncols : Nat) (rows : List (List String))
    (textCols : List Nat) (cachePatterns2 : List String)
    (hpre : ∀ q ∈ pre, hasSub (tableName.toList.map asciiLower) q.toList = false)
    (hp : hasSub (tableName.toList.map asciiLower) p.toList = true)
    (hnone : ∀ q ∈ cachePatterns2,
      hasSub (tableName.toList.map asciiLower) q.toList = false) :
    cleanTableAdvanced (pre ++ p :: post) keywords tableName ncols rows
      = ([], 0, some p)
    ∧ (cleanTableBasic (pre ++ p :: post) keywords tableName textCols rows).1 = []
    ∧ (cleanTableBasic (pre ++ p :: post) keywords tableName textCols rows).2.2
      = some p
    ∧ cleanTableAdvanced cachePatterns2 keywords tableName ncols rows
      = (cleanKeywordRows keywords ncols rows,
         rows.length - (cleanKeywordRows keywords ncols rows).length, none) := by
  have hfind : (pre ++ p :: post).find?
      (fun q => hasSub (tableName.toList.map asciiLower) q.toList) = some p :=
    find?_first_match _ pre p post hpre hp
  have hfind2 : cachePatterns2.find?
      (fun q => hasSub (tableName.toList.map asciiLower) q.toList) = none :=
    List.find?_eq_none.mpr fun q hq => by
      simp only [hnone q hq]
      exact Bool.false_ne_true
  refine ⟨?_, ?_, ?_, ?_⟩
  · unfold cleanTableAdvanced
    rw [hfind]
  · unfold cleanTableBasic
    rw [hfind]
  · unfold cleanTableBasic
    rw [hfind]
  · unfold cleanTableAdvanced
    rw [hfind2]

/-- Witness for C4: a lowercase pattern firing on a mixed-case table
name (second in the list, after a non-matching pattern), and a keyword
table matching no pattern. -/
theorem cache_table_clear_amended_witness :
    cleanTableAdvanced (["xyz"] ++ ["cache"]) ["kw"] "MyCacheTbl" 1 [["a"], ["b"]]
      = ([], 0, some "cache")
    ∧ (cleanTableBasic (["xyz"] ++ ["cache"]) ["kw"] "MyCacheTbl" [0] [["a"], ["b"]]).1
      = []
    ∧ (cleanTableBasic (["xyz"] ++ ["cache"]) ["kw"] "MyCacheTbl" [0] [["a"], ["b"]]).2.2
      = some "cache"
    ∧ cleanTableAdvanced ["log"] ["kw"] "MyCacheTbl" 1 [["a"], ["b"]]
      = (cleanKeywordRows ["kw"] 1 [["a"], ["b"]],
         ([["a"], ["b"]] : List (List String)).length
           - (cleanKeywordRows ["kw"] 1 [["a"], ["b"]]).length, none) :=
  cache_table_clear_amended ["xyz"] [] ["kw"] "cache" "MyCacheTbl" 1
    [["a"], ["b"]] [0] ["log"] (by decide) (by decide) (by decide)

/-- Claim C5 counterexample: the claim asserts that in dry-run mode no
deletion or backup mutation is performed.  On a matched directory with
children `a`, `b`, the dry-run step leaves the contents unchanged — but
it still creates a backup, because `_create_backup` is called before the
`dry_run` test: the backup root gains an entry. -/
theorem dry_run_backup_counterexample :
    (cleanCacheDirStep true true
      ⟨some [⟨"a", FsKind.file, true⟩, ⟨"b", FsKind.file, true⟩], []⟩).dir
      = some [⟨"a", FsKind.file, true⟩, ⟨"b", FsKind.file, true⟩]
    ∧ (cleanCacheDirStep true true
      ⟨some [⟨"a", FsKind.file, true⟩, ⟨"b", FsKind.file, true⟩], []⟩).backups
      = [[⟨"a", FsKind.file, true⟩, ⟨"b", FsKind.file, true⟩]] := by decide

/-- Claim C5 (amended): non-dry-run eviction deletes all immediate
children (when each per-item removal succeeds) while the directory node
itself still exists; dry-run leaves the contents unchanged and performs
no deletion — but backup creation is NOT suppressed: when the backup call
succeeds, the backup root is mutated even in dry-run mode. -/
theorem cache_eviction_amended (items : List FsItem) (backups : List (List FsItem))
    (backupOk : Bool) (hok : ∀ it ∈ items, it.removeOk = true) :
    (cleanCacheDirStep false backupOk ⟨some items, backups⟩).dir = some []
    ∧ (cleanCacheDirStep true backupOk ⟨some items, backups⟩).dir = some items
    ∧ (cleanCacheDirStep true backupOk ⟨some items, backups⟩).backups
        = backups ++ (if backupOk then [items] else []) := by
  have hclear : clearDirectoryContents items = [] := by
    rw [clearDirectoryContents, List.filter_eq_nil_iff]
    rintro ⟨n, k, ro⟩ hit
    have := hok _ hit
    simp only at this
    cases k <;> simp [this]
  cases backupOk <;> simp [cleanCacheDirStep, hclear]

/-- Witness for C5 on a directory holding a file and a subdirectory. -/
theorem cache_eviction_amended_witness :
    (cleanCacheDirStep false true
      ⟨some [⟨"a", FsKind.file, true⟩, ⟨"sub", FsKind.dir, true⟩], []⟩).dir = some []
    ∧ (cleanCacheDirStep true true
      ⟨some [⟨"a", FsKind.file, true⟩, ⟨"sub", FsKind.dir, true⟩], []⟩).dir
      = some [⟨"a", FsKind.file, true⟩, ⟨"sub", FsKind.dir, true⟩]
    ∧ (cleanCacheDirStep true true
      ⟨some [⟨"a", FsKind.file, true⟩, ⟨"sub", FsKind.dir, true⟩], []⟩).backups
      = [] ++ (if true then [[⟨"a", FsKind.file, true⟩, ⟨"sub", FsKind.dir, true⟩]]
               else []) :=
  cache_eviction_amended [⟨"a", FsKind.file, true⟩, ⟨"sub", FsKind.dir, true⟩] []
    true (by decide)

/-- With every per-entry deletion succeeding, the sweep keeps exactly the
entries at or after the cutoff. -/
theorem sweepBackups_all_ok (cutoff : Int) (entries : List BackupEntry)
    (hok : ∀ e ∈ entries, e.delOk = true) :
    sweepBackups cutoff entries
      = entries.filter fun e => decide (cutoff ≤ e.mtime) := by
  induction entries with
  | nil => rfl
  | cons e rest ih =>
    have he := hok e (List.mem_cons_self _ _)
    have ih2 := ih fun x hx => hok x (List.mem_cons_of_mem _ hx)
    by_cases h : e.mtime < cutoff
    · have hd : decide (cutoff ≤ e.mtime) = false := by
        simp [not_le.mpr h]
      simp [sweepBackups, h, he, ih2, List.filter_cons, hd]
    · have hd : decide (cutoff ≤ e.mtime) = true := by
        simp [le_of_not_lt h]
      simp [sweepBackups, h, ih2, List.filter_cons, hd]

/-- Claim C6: the retention sweep (all deletions succeeding) removes
exactly the entries with modification time strictly older than
`now − retentionDays` (in seconds, `retentionDays * 86400`): an entry
exactly at the boundary is kept by the filter, a strictly older one is
removed, and any `retentionDays ≤ 0` disables the sweep entirely. -/
theorem retention_boundary (retentionDays now : Int) (entries : List BackupEntry)
    (hok : ∀ e ∈ entries, e.delOk = true) :
    (retentionDays ≤ 0 → cleanOldBackups retentionDays now entries = entries)
    ∧ (0 < retentionDays →
        cleanOldBackups retentionDays now entries
          = entries.filter fun e => decide (now - retentionDays * 86400 ≤ e.mtime)) := by
  constructor
  · intro h
    rw [cleanOldBackups, if_pos h]
  · intro h
    rw [cleanOldBackups, if_neg (not_le.mpr h)]
    exact sweepBackups_all_ok _ entries hok

/-- Witness for C6: with `retentionDays = 1` and `now = 200000` the
cutoff is `113600`; the boundary entry is retained, the strictly older
one removed; with `retentionDays = 0` nothing is removed. -/
theorem retention_boundary_witness :
    cleanOldBackups 1 200000 [⟨113600, true⟩, ⟨113599, true⟩] = [⟨113600, true⟩]
    ∧ cleanOldBackups 0 200000 [⟨113599, true⟩] = [⟨113599, true⟩] := by
  constructor
  · rw [(retention_boundary 1 200000 [⟨113600, true⟩, ⟨113599, true⟩]
      (by decide)).2 (by decide)]
    decide
  · exact (retention_boundary 0 200000 [⟨113599, true⟩] (by decide)).1 (by decide)

/-- Claim C7 counterexample: the claim asserts that a failed per-entry
deletion is logged and sweeping continues so every other expired entry is
still processed.  With cutoff `113600`, both entries are expired; the
second is removed when processed alone, but survives when the first
entry's deletion fails — the `try` in `_clean_old_backups` wraps the whole
loop, so the first failure aborts the sweep. -/
theorem retention_sweep_abort_counterexample :
    cleanOldBackups 1 200000 [⟨0, false⟩, ⟨1, true⟩] = [⟨0, false⟩, ⟨1, true⟩]
    ∧ cleanOldBackups 1 200000 [⟨1, true⟩] = [] := by decide

/-- The sweep loop up to the first failing expired entry: everything
expired before it is removed, the failing entry and every later entry
survive untouched. -/
theorem sweepBackups_abort (cutoff : Int) (pre post : List BackupEntry)
    (e : BackupEntry) (hpre : ∀ x ∈ pre, x.delOk = true)
    (he : e.mtime < cutoff) (hf : e.delOk = false) :
    sweepBackups cutoff (pre ++ e :: post)
      = (pre.filter fun x => decide (cutoff ≤ x.mtime)) ++ e :: post := by
  induction pre with
  | nil => simp [sweepBackups, he, hf]
  | cons x xs ih =>
    have hx := hpre x (List.mem_cons_self _ _)
    have ih2 := ih fun y hy => hpre y (List.mem_cons_of_mem _ hy)
    by_cases h : x.mtime < cutoff
    · have hd : decide (cutoff ≤ x.mtime) = false := by
        simp [not_le.mpr h]
      simp [sweepBackups, h, hx, ih2, List.filter_cons, hd]
    · have hd : decide (cutoff ≤ x.mtime) = true := by
        simp [le_of_not_lt h]
      simp [sweepBackups, h, ih2, List.filter_cons, hd]

/-- Claim C7 (amended): if deleting one expired entry fails during the
retention sweep, the failure is logged and the WHOLE sweep is aborted
(the exception handler sits outside the loop): expired entries processed
before the failure stay deleted, while the failing entry and every entry
after it — expired or not — are left in place; the failure does not
propagate to the caller. -/
theorem retention_sweep_abort (retentionDays now : Int)
    (pre post : List BackupEntry) (e : BackupEntry) (hpos : 0 < retentionDays)
    (hpre : ∀ x ∈ pre, x.delOk = true)
    (he : e.mtime < now - retentionDays * 86400) (hf : e.delOk = false) :
    cleanOldBackups retentionDays now (pre ++ e :: post)
      = (pre.filter fun x => decide (now - retentionDays * 86400 ≤ x.mtime))
        ++ e :: post := by
  rw [cleanOldBackups, if_neg (not_le.mpr hpos)]
  exact sweepBackups_abort _ pre post e hpre he hf

/-- Witness for C7: the expired entry before the failure is removed; the
failing entry and the expired entry after it survive. -/
theorem retention_sweep_abort_witness :
    cleanOldBackups 1 200000 [⟨0, true⟩, ⟨50, false⟩, ⟨60, true⟩]
      = [⟨50, false⟩, ⟨60, true⟩] := by
  have h := retention_sweep_abort 1 200000 [⟨0, true⟩] [⟨60, true⟩] ⟨50, false⟩
    (by decide) (by decide) (by decide) (by decide)
  simpa using h

/-- Claim C8: for a target passing the safety gate (path found; process
check disabled or no process running), all three mutation phases run in
order regardless of the boolean outcome of earlier phases — the phases
here append their tag to a trace, and the trace always ends `[1, 2, 3]`
whatever the outcome functions `f1`, `f2`, `f3` return — and the overall
result is the non-short-circuiting AND of the phase results, true iff
every phase result is true.  Proved for both
`clean_application_advanced` (with the retention sweep first and the
registry phase disabled off Windows) and the basic `clean_application`. -/
theorem phase_aggregation (sweepOld : List Nat → List Nat)
    (reg : List Nat → List Nat × Bool) (f1 f2 f3 : List Nat → Bool)
    (s : List Nat) (checkProcs running : Bool)
    (hgate : (checkProcs && running) = false) :
    cleanApplicationAdvanced true checkProcs running false sweepOld reg
        (fun t => (t ++ [1], f1 t)) (fun t => (t ++ [2], f2 t))
        (fun t => (t ++ [3], f3 t)) s
      = (sweepOld s ++ [1, 2, 3],
         f1 (sweepOld s) && f2 (sweepOld s ++ [1]) && f3 (sweepOld s ++ [1, 2]))
    ∧ ((cleanApplicationAdvanced true checkProcs running false sweepOld reg
        (fun t => (t ++ [1], f1 t)) (fun t => (t ++ [2], f2 t))
        (fun t => (t ++ [3], f3 t)) s).2 = true
        ↔ f1 (sweepOld s) = true ∧ f2 (sweepOld s ++ [1]) = true
          ∧ f3 (sweepOld s ++ [1, 2]) = true)
    ∧ cleanApplicationBasic true false
        (fun t => (t ++ [1], f1 t)) (fun t => (t ++ [2], f2 t))
        (fun t => (t ++ [3], f3 t)) s
      = (s ++ [1, 2, 3], f1 s && f2 (s ++ [1]) && f3 (s ++ [1, 2]))
    ∧ ((cleanApplicationBasic true false
        (fun t => (t ++ [1], f1 t)) (fun t => (t ++ [2], f2 t))
        (fun t => (t ++ [3], f3 t)) s).2 = true
        ↔ f1 s = true ∧ f2 (s ++ [1]) = true ∧ f3 (s ++ [1, 2]) = true) := by
  have hadv : cleanApplicationAdvanced true checkProcs running false sweepOld reg
      (fun t => (t ++ [1], f1 t)) (fun t => (t ++ [2], f2 t))
      (fun t => (t ++ [3], f3 t)) s
      = (sweepOld s ++ [1, 2, 3],
         f1 (sweepOld s) && f2 (sweepOld s ++ [1]) && f3 (sweepOld s ++ [1, 2])) := by
    simp [cleanApplicationAdvanced, hgate]
  have hbas : cleanApplicationBasic true false
      (fun t => (t ++ [1], f1 t)) (fun t => (t ++ [2], f2 t))
      (fun t => (t ++ [3], f3 t)) s
      = (s ++ [1, 2, 3], f1 s && f2 (s ++ [1]) && f3 (s ++ [1, 2])) := by
    simp [cleanApplicationBasic]
  refine ⟨hadv, ?_, hbas, ?_⟩
  · rw [hadv]
    simp [Bool.and_eq_true, and_assoc]
  · rw [hbas]
    simp [Bool.and_eq_true, and_assoc]

/-- Witness for C8: phase 1 fails (`false`), yet phases 2 and 3 still run
(the trace reaches `[1, 2, 3]`) and the overall result is `false`. -/
theorem phase_aggregation_witness :
    cleanApplicationAdvanced true true false false (fun t => t) (fun t => (t, true))
        (fun t => (t ++ [1], false)) (fun t => (t ++ [2], true))
        (fun t => (t ++ [3], true)) []
      = ([1, 2, 3], false)
    ∧ cleanApplicationBasic true false
        (fun t => (t ++ [1], false)) (fun t => (t ++ [2], true))
        (fun t => (t ++ [3], true)) []
      = ([1, 2, 3], false) := by
  have h := phase_aggregation (fun t => t) (fun t => (t, true))
    (fun _ => false) (fun _ => true) (fun _ => true) [] true false (by decide)
  exact ⟨h.1, h.2.2.1⟩

/-- Claim C1 counterexample: the claim requires that a path whose backup
yields no backup is not mutated.  In `_modify_telemetry_advanced` a
discovered SQLite store whose backup fails is still mutated: the trace
holds a failed backup event followed by the mutation, and the
happens-before/skip invariant `mutationsCovered` is violated. -/
theorem backup_skip_counterexample :
    modifyTelemetryAdvancedTrace [⟨0, true, false, StoreKind.sqlite⟩]
      = [CleanEvent.backup 0 false, CleanEvent.mutate 0]
    ∧ mutationsCovered []
      (modifyTelemetryAdvancedTrace [⟨0, true, false, StoreKind.sqlite⟩]) = false := by
  decide

/-- Claim C1 (amended): a backup of the exact path is attempted strictly
before every mutation in both cleaners; in the basic cleaner
(`_modify_telemetry_ids`) a failed backup causes the mutation of that
path to be skipped, so every mutation is preceded by a successful backup
of its path — but in the advanced cleaner (`_modify_telemetry_advanced`)
only the backup ATTEMPT precedes the mutation: the mutation proceeds even
when backup creation returns no backup. -/
theorem backup_before_mutation_amended (files : List FoundFile)
    (backed seen : List Nat) :
    mutationsCovered backed (modifyTelemetryIdsTrace files) = true
    ∧ backupTriedBeforeMutate seen (modifyTelemetryAdvancedTrace files) = true := by
  constructor
  · induction files generalizing backed with
    | nil => rfl
    | cons f fs ih =>
      show mutationsCovered backed
        (telemetryFileTraceBasic f ++ modifyTelemetryIdsTrace fs) = true
      rcases f with ⟨p, present, bok, kind⟩
      cases present
      · simpa [telemetryFileTraceBasic] using ih backed
      · cases bok
        · simpa [telemetryFileTraceBasic, mutationsCovered] using ih backed
        · cases kind <;>
            simpa [telemetryFileTraceBasic, mutationsCovered] using ih (p :: backed)
  · induction files generalizing seen with
    | nil => rfl
    | cons f fs ih =>
      show backupTriedBeforeMutate seen
        (telemetryFileTraceAdvanced f ++ modifyTelemetryAdvancedTrace fs) = true
      rcases f with ⟨p, present, bok, kind⟩
      cases present
      · simpa [telemetryFileTraceAdvanced] using ih seen
      · cases kind <;>
          simpa [telemetryFileTraceAdvanced, backupTriedBeforeMutate]
            using ih (p :: seen)

end Cleaner
